import Mathlib

/-!
Shallow embedding of the moderation/publication core of the
Telegram-SpottedDMI-Bot repository.

The embedded code lives in:
  - `src/spotted/utils/info_util.py` (class `EventInfo`)
  - `src/spotted/handlers/constants.py` (the `STATE` dictionary)
  - `modules/handlers/db_backup.py` (the `db_backup_cmd` handler)

Transport calls (Telegram Bot API) are modelled as data (`TransportCall`)
together with an outcome oracle; the persistent store rows (`PendingPost`,
`PublishedPost`) are modelled as lists of records; the bot's in-memory
`bot_data` dictionary is modelled as an association list whose keys are the
`(chat id, message id)` pairs that the Python code encodes as the f-string
`f"\x7bchannel_id\x7d,\x7bc_message_id\x7d"` (that encoding is injective on
pairs of integers, so the pair is an exact model of the key).
Python strings are modelled as `List Char` where the code manipulates them
character-wise (callback data splitting) and as `String` where they are
opaque payloads.
-/

namespace Spotted

/-- A Telegram user, as far as the embedded accessors need it:
`from_user.id`, `from_user.username` (optional) and `from_user.name`. -/
structure TUser where
  id : Int
  username : Option String
  name : String
deriving DecidableEq

/-- One option of a Telegram poll: the option text plus the per-option
voter count (voter-derived data of the original poll). -/
structure PollOption where
  text : String
  voter_count : Nat
deriving DecidableEq

/-- A Telegram poll object attached to a message.  The first five fields are
the ones the code forwards when recreating a poll; the remaining fields
(`pid`, `total_voter_count`, per-option `voter_count` above, `is_anonymous`,
`is_closed`) carry data derived from the original poll and its voters. -/
structure Poll where
  question : String
  options : List PollOption
  type : String
  allows_multiple_answers : Bool
  correct_option_id : Option Nat
  pid : String
  total_voter_count : Nat
  is_anonymous : Bool
  is_closed : Bool
deriving DecidableEq

/-- A rich-text entity of a message (`message.entities` element). -/
structure MessageEntity where
  etype : String
  offset : Nat
  length : Nat
deriving DecidableEq

/-- A Telegram message, restricted to the fields the embedded code reads.
`text` is `Option String` (Python `None` or a string); `photo` is the list
of photo sizes (Python: possibly-empty tuple); `entities` is the list of
rich-text entities (Python: possibly-empty tuple); the media fields hold an
opaque file id when present.  In the flows embedded here every message has
a sender, so `from_user` is total. -/
structure Message where
  message_id : Nat
  chat_id : Int
  from_user : TUser
  text : Option String
  entities : List MessageEntity
  photo : List String
  voice : Option String
  audio : Option String
  video : Option String
  animation : Option String
  sticker : Option String
  poll : Option Poll
deriving DecidableEq

/-- A callback query: `query.data` is the comma-separated callback payload
(modelled character-wise), `query.from_user` the user who pressed the
button. -/
structure Query where
  qid : String
  data : Option (List Char)
  from_user : TUser
deriving DecidableEq

/-- The event information object (`EventInfo.__init__`): the optional
message, the optional callback query, and the context's `args` list
(`ctx.args`, `None` or a list of strings). -/
structure EventInfo where
  message : Option Message
  query : Option Query
  ctx_args : Option (List (List Char))
deriving DecidableEq

namespace EventInfo

/-- `EventInfo.chat_id`: `None` if there is no message, else the message's
chat id. -/
def chat_id (e : EventInfo) : Option Int :=
  match e.message with
  | none => none
  | some m => some m.chat_id

/-- `EventInfo.user_id`: the query's originating user when a callback query
is present, else the message sender, else `None`. -/
def user_id (e : EventInfo) : Option Int :=
  match e.query with
  | some q => some q.from_user.id
  | none =>
    match e.message with
    | some m => some m.from_user.id
    | none => none

/-- `EventInfo.user_username`: same precedence as `user_id`; the inner
`Option` is the user's possibly-absent username. -/
def user_username (e : EventInfo) : Option (Option String) :=
  match e.query with
  | some q => some q.from_user.username
  | none =>
    match e.message with
    | some m => some m.from_user.username
    | none => none

/-- `EventInfo.user_name`: same precedence as `user_id`. -/
def user_name (e : EventInfo) : Option String :=
  match e.query with
  | some q => some q.from_user.name
  | none =>
    match e.message with
    | some m => some m.from_user.name
    | none => none

end EventInfo

/-- Python truthiness of an optional string (`None` and `""` are falsy). -/
def textTruthy : Option String → Bool
  | none => false
  | some s => !(s.isEmpty)

/-- `EventInfo.is_valid_message_type`: `False` without a message, else the
Python truthiness of
`text or photo or voice or audio or video or animation or sticker or poll`. -/
def is_valid_message_type : Option Message → Bool
  | none => false
  | some m =>
    textTruthy m.text || !m.photo.isEmpty || m.voice.isSome || m.audio.isSome ||
      m.video.isSome || m.animation.isSome || m.sticker.isSome || m.poll.isSome

/-- How many of the eight supported content kinds a message carries
(under Python truthiness of each field). -/
def contentKindCount (m : Message) : Nat :=
  (if textTruthy m.text then 1 else 0) +
  (if !m.photo.isEmpty then 1 else 0) +
  (if m.voice.isSome then 1 else 0) +
  (if m.audio.isSome then 1 else 0) +
  (if m.video.isSome then 1 else 0) +
  (if m.animation.isSome then 1 else 0) +
  (if m.sticker.isSome then 1 else 0) +
  (if m.poll.isSome then 1 else 0)

/-- Python `str.split(",")` on a character list: always returns at least one
field; adjacent separators and boundary separators yield empty fields. -/
def splitComma : List Char → List (List Char)
  | [] => [[]]
  | c :: rest =>
    match splitComma rest with
    | [] => [[]]
    | f :: fs => if c = ',' then [] :: f :: fs else (c :: f) :: fs

namespace EventInfo

/-- `EventInfo.callback_key`: the empty string when there is no callback
query or no data, else the first comma-separated field of the data. -/
def callback_key (e : EventInfo) : List Char :=
  match e.query with
  | none => []
  | some q =>
    match q.data with
    | none => []
    | some d => (splitComma d).headD []

/-- `EventInfo.args`: with a callback query carrying data, the fields after
the first one (empty when the split has a single field); otherwise
`ctx.args` or the empty list. -/
def args (e : EventInfo) : List (List Char) :=
  match e.query with
  | some q =>
    match q.data with
    | some d =>
      let a := splitComma d
      if a.length > 1 then a.tail else []
    | none => e.ctx_args.getD []
  | none => e.ctx_args.getD []

end EventInfo

/-- The payload the code hands to `bot.send_poll` when recreating a poll:
question, the option texts, type, multiple-answers flag and correct option
id — nothing else of the original poll. -/
structure SentPoll where
  question : String
  options : List String
  type : String
  allows_multiple_answers : Bool
  correct_option_id : Option Nat
deriving DecidableEq

/-- Builds the `send_poll` payload from a poll, exactly as both call sites
(`send_post_to_admins` and `send_post_to_channel`) do. -/
def sendPollPayload (p : Poll) : SentPoll :=
  ⟨p.question, p.options.map PollOption.text, p.type, p.allows_multiple_answers,
    p.correct_option_id⟩

/-- The inline keyboards the embedded code attaches
(`get_approve_kb`, `get_published_post_kb`). -/
inductive Markup where
  | approveKb
  | publishedPostKb
deriving DecidableEq

/-- A transport call issued to the bot when copying a submission to another
destination. -/
inductive TransportCall where
  | sendPoll (chat_id : Int) (payload : SentPoll) (reply_markup : Option Markup)
  | sendMessage (chat_id : Int) (text : String) (entities : List MessageEntity)
      (disable_web_page_preview : Bool) (reply_markup : Option Markup)
  | copyMessage (chat_id : Int) (from_chat_id : Int) (message_id : Nat)
      (reply_markup : Option Markup)
deriving DecidableEq

/-- The reply markup attached to a transport call. -/
def TransportCall.replyMarkup : TransportCall → Option Markup
  | .sendPoll _ _ rm => rm
  | .sendMessage _ _ _ _ rm => rm
  | .copyMessage _ _ _ rm => rm

/-- Outcome of a transport call: the new destination-local message id on
success, or a `BadRequest` error. -/
inductive SendOutcome where
  | ok (message_id : Nat)
  | badRequest (why : String)
deriving DecidableEq

/-- A pending-post row.  Modelled from the spec: the `PendingPost` data
class is not part of the sources under review (only its call sites are);
per the spec's data model it references the original submitted content
(submitter and message id), the admin-facing copy (group + message id) and
an initially-empty vote map. -/
structure PendingPost where
  user_id : Int
  u_message_id : Nat
  admin_group_id : Int
  g_message_id : Nat
  votes : List (Int × Bool)
deriving DecidableEq

/-- Modelled from the spec: `PendingPost.create(user_message, admin_group_id,
g_message_id)` inserts one row recording the submission and the admin copy,
with an empty vote map. -/
def PendingPost.create (user_message : Message) (admin_group_id : Int)
    (g_message_id : Nat) (tbl : List PendingPost) : List PendingPost :=
  tbl ++ [⟨user_message.from_user.id, user_message.message_id, admin_group_id,
    g_message_id, []⟩]

/-- Modelled from the spec: `PendingPost.get_all(admin_group_id)` selects
the pending rows of that admin group. -/
def PendingPost.get_all (admin_group_id : Int) (tbl : List PendingPost) :
    List PendingPost :=
  tbl.filter (fun p => decide (p.admin_group_id = admin_group_id))

/-- A published-post row.  Modelled from the spec: the `PublishedPost` data
class is not part of the sources under review; per the spec it is keyed by
channel id and public message id and carries a community vote tally. -/
structure PublishedPost where
  channel_id : Int
  c_message_id : Nat
  votes : List (Int × Bool)
deriving DecidableEq

/-- Modelled from the spec: `PublishedPost.create(channel_id, c_message_id)`
inserts one row with an empty tally. -/
def PublishedPost.create (channel_id : Int) (c_message_id : Nat)
    (tbl : List PublishedPost) : List PublishedPost :=
  tbl ++ [⟨channel_id, c_message_id, []⟩]

/-- The bot's `bot_data` dictionary restricted to the credit records: keys
are the `(channel id, message id)` pairs of the Python f-string keys. -/
abbrev BotData := List ((Int × Nat) × Int)

/-- Dictionary lookup. -/
def botDataGet (k : Int × Nat) : BotData → Option Int
  | [] => none
  | e :: rest => if e.fst = k then some e.snd else botDataGet k rest

/-- Dictionary assignment `bot_data[key] = value` (overwrites). -/
def botDataSet (k : Int × Nat) (v : Int) (bd : BotData) : BotData :=
  (k, v) :: bd.filter (fun e => decide (e.fst ≠ k))

/-- Dictionary `bot_data.pop(key, -1)`: the stored value (or `-1` when the
key is absent) together with the dictionary without that key. -/
def botDataPop (k : Int × Nat) (bd : BotData) : Int × BotData :=
  match botDataGet k bd with
  | some v => (v, bd.filter (fun e => decide (e.fst ≠ k)))
  | none => (-1, bd)

/-- The transport call `send_post_to_admins` issues for a submission: a
recreated anonymous poll for poll messages; `send_message` preserving
entities and the preview setting for entity-bearing text; a generic
`copy_message` otherwise.  All three carry the approve keyboard. -/
def adminCopyCall (show_preview : Bool) (m : Message) (admin_group_id : Int) :
    TransportCall :=
  match m.poll with
  | some p => .sendPoll admin_group_id (sendPollPayload p) (some Markup.approveKb)
  | none =>
    if textTruthy m.text && !m.entities.isEmpty then
      .sendMessage admin_group_id (m.text.getD "") m.entities (!show_preview)
        (some Markup.approveKb)
    else
      .copyMessage admin_group_id m.chat_id m.message_id (some Markup.approveKb)

/-- `EventInfo.send_post_to_admins`: issues the admin copy; on `BadRequest`
logs and returns `False` with the pending table untouched; on success
creates the `PendingPost` correlated with the new admin message id and
returns `True`.  `message` is `self.message.reply_to_message` (the user's
submission); `show_preview_setting` is `user_data.get("show_preview", True)`;
`outcome` is the transport's response to the issued call. -/
def send_post_to_admins (outcome : TransportCall → SendOutcome)
    (show_preview_setting : Option Bool) (message : Message)
    (admin_group_id : Int) (tbl : List PendingPost) :
    Bool × List PendingPost :=
  let show_preview := show_preview_setting.getD true
  match outcome (adminCopyCall show_preview message admin_group_id) with
  | .badRequest _ => (false, tbl)
  | .ok g_message_id =>
    (true, PendingPost.create message admin_group_id g_message_id tbl)

/-- The published-post registry state touched by `send_post_to_channel` and
`send_post_to_channel_group`: the `PublishedPost` table and the credit
records in `bot_data`. -/
structure ChannelState where
  published : List PublishedPost
  bot_data : BotData
deriving DecidableEq

/-- The transport call `send_post_to_channel` issues: a recreated anonymous
poll for poll messages, a generic `copy_message` otherwise; the community
vote keyboard is attached exactly when comments are disabled. -/
def channelCopyCall (comments : Bool) (m : Message) (channel_id : Int) :
    TransportCall :=
  let reply_markup := if !comments then some Markup.publishedPostKb else none
  match m.poll with
  | some p => .sendPoll channel_id (sendPollPayload p) reply_markup
  | none => .copyMessage channel_id m.chat_id m.message_id reply_markup

/-- `EventInfo.send_post_to_channel` state effect, given the new channel
message id `c_message_id` produced by the transport call: with comments
disabled create the `PublishedPost`; with comments enabled store the
submitter's id in `bot_data` under the `(channel_id, c_message_id)` key. -/
def send_post_to_channel (comments : Bool) (channel_id : Int) (user_id : Int)
    (c_message_id : Nat) (st : ChannelState) : ChannelState :=
  if !comments then
    ⟨PublishedPost.create channel_id c_message_id st.published, st.bot_data⟩
  else
    ⟨st.published, botDataSet (channel_id, c_message_id) user_id st.bot_data⟩

/-- `EventInfo.send_post_to_channel_group`: pops the credit record keyed by
the forwarded post's `(forward_from_chat_id, forward_from_id)` (default
`-1` when absent), then creates a `PublishedPost` for the cross-post in the
community group.  Returns the resolved submitter id (used for the "by:"
sign) and the new state; `post_message_id` is the id of the message the
transport created in the community group. -/
def send_post_to_channel_group (community_group_id : Int)
    (forward_from_chat_id : Int) (forward_from_id : Nat)
    (post_message_id : Nat) (st : ChannelState) : Int × ChannelState :=
  let popped := botDataPop (forward_from_chat_id, forward_from_id) st.bot_data
  (popped.fst,
    ⟨PublishedPost.create community_group_id post_message_id st.published,
      popped.snd⟩)

/-- Insertion into a list sorted by ascending `g_message_id`. -/
def insertByGmid (p : PendingPost) : List PendingPost → List PendingPost
  | [] => [p]
  | q :: rest =>
    if p.g_message_id ≤ q.g_message_id then p :: q :: rest
    else q :: insertByGmid p rest

/-- Stable sort by ascending `g_message_id`
(`remaining_pending_posts.sort(key=lambda post: post.g_message_id)`). -/
def sortByGmid : List PendingPost → List PendingPost
  | [] => []
  | p :: rest => insertByGmid p (sortByGmid rest)

/-- The remaining pending posts `show_admins_votes` computes: all pending
posts of the finalized post's admin group, with the finalized one removed
(`post.g_message_id != pending_post.g_message_id`). -/
def remainingPosts (pending_post : PendingPost) (tbl : List PendingPost) :
    List PendingPost :=
  (PendingPost.get_all pending_post.admin_group_id tbl).filter
    (fun post => decide (post.g_message_id ≠ pending_post.g_message_id))

/-- The reminder part of `EventInfo.show_admins_votes`: after finalizing
`pending_post`, take all pending posts of the same admin group, drop the
finalized one, sort ascending by admin message id; if any remain, reply to
the oldest with the remaining count.  Result: `some (count, reply target
g_message_id)` when a reminder is sent, `none` otherwise. -/
def show_admins_votes (pending_post : PendingPost) (tbl : List PendingPost) :
    Option (Nat × Nat) :=
  let sortedRemaining := sortByGmid (remainingPosts pending_post tbl)
  match sortedRemaining with
  | [] => none
  | oldest :: _ => some (sortedRemaining.length, oldest.g_message_id)

/-- `db_backup_cmd`: the backup job runs exactly when the event's chat id
equals the configured `group_id`; either way the handler sends no message.
Result: whether `db_backup_job` ran, and the (always empty) list of
responses sent back. -/
def db_backup_cmd (group_id : Int) (e : EventInfo) : Bool × List String :=
  if EventInfo.chat_id e = some group_id then (true, []) else (false, [])

/-- The `STATE` dictionary of `handlers/constants.py`. -/
def STATE : List (String × Int) :=
  [("posting", 1), ("confirm", 2), ("reporting_spot", 3), ("reporting_user", 4),
    ("reporting_user_reason", 6), ("sending_user_report", 7), ("end", -1)]

/-! Helper lemmas about the `bot_data` dictionary model. -/

/-- After removing a key, looking it up yields nothing. -/
lemma botDataGet_filter_ne (k : Int × Nat) (bd : BotData) :
    botDataGet k (bd.filter (fun e => decide (e.fst ≠ k))) = none := by
  induction bd with
  | nil => rfl
  | cons e rest ih =>
    rw [List.filter_cons]
    by_cases h : e.fst = k
    · rw [if_neg (by simp [h])]
      exact ih
    · rw [if_pos (by simp [h])]
      simp only [botDataGet]
      rw [if_neg h]
      exact ih

/-- The classifier accepts exactly the messages carrying at least one
supported content kind. -/
lemma is_valid_iff_pos (m : Message) :
    is_valid_message_type (some m) = true ↔ 0 < contentKindCount m := by
  unfold is_valid_message_type contentKindCount
  cases htext : textTruthy m.text <;>
    cases hphoto : m.photo.isEmpty <;>
    cases hvoice : m.voice.isSome <;>
    cases haudio : m.audio.isSome <;>
    cases hvideo : m.video.isSome <;>
    cases hanim : m.animation.isSome <;>
    cases hstick : m.sticker.isSome <;>
    cases hpoll : m.poll.isSome <;>
    simp [htext, hphoto, hvoice, haudio, hvideo, hanim, hstick, hpoll]

/-! Helper lemmas about the embedded `str.split(",")`. -/

/-- Splitting always yields at least one field. -/
lemma splitComma_ne_nil (s : List Char) : splitComma s ≠ [] := by
  induction s with
  | nil => simp [splitComma]
  | cons c rest ih =>
    simp only [splitComma]
    cases h : splitComma rest with
    | nil => simp
    | cons f fs => by_cases hc : c = ',' <;> simp [hc]

/-- The first field is the longest comma-free initial segment. -/
lemma splitComma_headD (s : List Char) :
    (splitComma s).headD [] = s.takeWhile (fun c => decide (c ≠ ',')) := by
  induction s with
  | nil => rfl
  | cons c rest ih =>
    simp only [splitComma]
    cases h : splitComma rest with
    | nil => exact absurd h (splitComma_ne_nil rest)
    | cons f fs =>
      rw [h] at ih
      simp only [List.headD_cons] at ih
      by_cases hc : c = ','
      · subst hc
        simp [List.takeWhile_cons]
      · simp [List.takeWhile_cons, hc, ih]

/-- The fields after the first one are the split of what follows the first
comma, and there are none when the string has no comma. -/
lemma splitComma_tail (s : List Char) :
    (splitComma s).tail =
      if ',' ∈ s then
        splitComma ((s.dropWhile (fun c => decide (c ≠ ','))).tail)
      else [] := by
  induction s with
  | nil => rfl
  | cons c rest ih =>
    simp only [splitComma]
    cases h : splitComma rest with
    | nil => exact absurd h (splitComma_ne_nil rest)
    | cons f fs =>
      by_cases hc : c = ','
      · subst hc
        simp [List.dropWhile_cons, h]
      · rw [h] at ih
        simp only [List.tail_cons] at ih
        have hcs : (',' = c) = False := by
          simp only [eq_iff_iff, iff_false]
          intro hx
          exact hc hx.symm
        simp [List.dropWhile_cons, hc, List.mem_cons, hcs, ih]

/-- The `len(args) > 1` guard is equivalent to taking the tail of a
nonempty split. -/
lemma tail_of_ite_length (a : List (List Char)) (h : a ≠ []) :
    (if a.length > 1 then a.tail else []) = a.tail := by
  cases a with
  | nil => exact absurd rfl h
  | cons f fs =>
    cases fs with
    | nil => simp
    | cons g gs => simp [List.length_cons]

/-! Helper lemmas about the sort by admin message id. -/

/-- Membership through insertion. -/
lemma mem_insertByGmid (p x : PendingPost) (l : List PendingPost) :
    x ∈ insertByGmid p l ↔ x = p ∨ x ∈ l := by
  induction l with
  | nil => simp [insertByGmid]
  | cons q rest ih =>
    simp only [insertByGmid]
    by_cases h : p.g_message_id ≤ q.g_message_id
    · rw [if_pos h]
      simp only [List.mem_cons]
    · rw [if_neg h]
      simp only [List.mem_cons, ih]
      tauto

/-- Insertion grows the length by one. -/
lemma length_insertByGmid (p : PendingPost) (l : List PendingPost) :
    (insertByGmid p l).length = l.length + 1 := by
  induction l with
  | nil => rfl
  | cons q rest ih =>
    simp only [insertByGmid]
    by_cases h : p.g_message_id ≤ q.g_message_id
    · rw [if_pos h]
      simp
    · rw [if_neg h]
      simp only [List.length_cons, ih]

/-- Sorting preserves membership. -/
lemma mem_sortByGmid (x : PendingPost) (l : List PendingPost) :
    x ∈ sortByGmid l ↔ x ∈ l := by
  induction l with
  | nil => simp [sortByGmid]
  | cons p rest ih =>
    simp [sortByGmid, mem_insertByGmid, ih, List.mem_cons]

/-- Sorting preserves the length. -/
lemma length_sortByGmid (l : List PendingPost) :
    (sortByGmid l).length = l.length := by
  induction l with
  | nil => rfl
  | cons p rest ih =>
    simp [sortByGmid, length_insertByGmid, ih]

/-- Insertion preserves sortedness by ascending admin message id. -/
lemma pairwise_insertByGmid (p : PendingPost) (l : List PendingPost)
    (h : l.Pairwise (fun a b => a.g_message_id ≤ b.g_message_id)) :
    (insertByGmid p l).Pairwise
      (fun a b => a.g_message_id ≤ b.g_message_id) := by
  induction l with
  | nil => simp [insertByGmid]
  | cons q rest ih =>
    rcases List.pairwise_cons.mp h with ⟨hq, hrest⟩
    simp only [insertByGmid]
    by_cases hle : p.g_message_id ≤ q.g_message_id
    · rw [if_pos hle]
      refine List.pairwise_cons.mpr ⟨?_, h⟩
      intro b hb
      rcases List.mem_cons.mp hb with rfl | hb2
      · exact hle
      · exact le_trans hle (hq b hb2)
    · rw [if_neg hle]
      refine List.pairwise_cons.mpr ⟨?_, ih hrest⟩
      intro b hb
      rcases (mem_insertByGmid p b rest).mp hb with rfl | hb2
      · exact le_of_not_le hle
      · exact hq b hb2

/-- The sort is sorted by ascending admin message id. -/
lemma pairwise_sortByGmid (l : List PendingPost) :
    (sortByGmid l).Pairwise (fun a b => a.g_message_id ≤ b.g_message_id) := by
  induction l with
  | nil => simp [sortByGmid]
  | cons p rest ih => exact pairwise_insertByGmid p (sortByGmid rest) ih

/-- The head of the sorted list is a member with the smallest admin message
id. -/
lemma sortByGmid_head_min (l : List PendingPost) (h : PendingPost)
    (t : List PendingPost) (heq : sortByGmid l = h :: t) :
    h ∈ l ∧ ∀ q ∈ l, h.g_message_id ≤ q.g_message_id := by
  constructor
  · have hm : h ∈ sortByGmid l := by
      rw [heq]
      exact List.mem_cons_self h t
    exact (mem_sortByGmid h l).mp hm
  · intro q hq
    have hmem : q ∈ sortByGmid l := (mem_sortByGmid q l).mpr hq
    rw [heq] at hmem
    rcases List.mem_cons.mp hmem with rfl | hmem2
    · exact le_refl _
    · have hp := pairwise_sortByGmid l
      rw [heq] at hp
      exact (List.pairwise_cons.mp hp).1 q hmem2

/-- Removing one member from a list of pairwise-distinct admin message ids
shrinks the length by exactly one. -/
lemma length_filter_ne_gmid (x : PendingPost) (l : List PendingPost)
    (hd : l.Pairwise (fun a b => a.g_message_id ≠ b.g_message_id))
    (hx : x ∈ l) :
    (l.filter (fun p => decide (p.g_message_id ≠ x.g_message_id))).length + 1 =
      l.length := by
  induction l with
  | nil => cases hx
  | cons a rest ih =>
    rcases List.pairwise_cons.mp hd with ⟨ha, hrest⟩
    rw [List.filter_cons]
    rcases List.mem_cons.mp hx with rfl | hx2
    · rw [if_neg (by simp)]
      have hall : rest.filter
          (fun p => decide (p.g_message_id ≠ x.g_message_id)) = rest := by
        apply List.filter_eq_self.mpr
        intro b hb
        simp only [decide_eq_true_eq]
        exact fun hbe => (ha b hb) hbe.symm
      rw [hall, List.length_cons]
    · have hne : a.g_message_id ≠ x.g_message_id := ha x hx2
      rw [if_pos (by simp [hne])]
      have := ih hrest hx2
      simp only [List.length_cons]
      omega

/-! Theorems settling the claims. -/

/-- C1: `send_post_to_admins` either fails on a transport `BadRequest` with
the pending-post table untouched, or succeeds creating exactly one
`PendingPost` correlated with the new admin-copy message id; failure is
reported exactly when no record was created. -/
theorem send_post_to_admins_delivery (outcome : TransportCall → SendOutcome)
    (sp : Option Bool) (m : Message) (ag : Int) (tbl : List PendingPost) :
    (∀ why, outcome (adminCopyCall (sp.getD true) m ag) = SendOutcome.badRequest why →
      send_post_to_admins outcome sp m ag tbl = (false, tbl)) ∧
    (∀ gid, outcome (adminCopyCall (sp.getD true) m ag) = SendOutcome.ok gid →
      send_post_to_admins outcome sp m ag tbl =
        (true, tbl ++ [⟨m.from_user.id, m.message_id, ag, gid, []⟩])) ∧
    ((send_post_to_admins outcome sp m ag tbl).fst = false ↔
      (send_post_to_admins outcome sp m ag tbl).snd = tbl) := by
  refine ⟨?_, ?_, ?_⟩
  · intro why h
    simp [send_post_to_admins, h]
  · intro gid h
    simp [send_post_to_admins, h, PendingPost.create]
  · cases h : outcome (adminCopyCall (sp.getD true) m ag) with
    | ok gid => simp [send_post_to_admins, h, PendingPost.create]
    | badRequest why => simp [send_post_to_admins, h]

/-- C1 witness: a successful copy at a concrete input creates exactly the
correlated record. -/
theorem send_post_to_admins_delivery_witness :
    send_post_to_admins (fun _ => SendOutcome.ok 5) none
      ⟨3, 7, ⟨7, none, "u"⟩, some "hi", [], [], none, none, none, none, none, none⟩
      10 [] = (true, [⟨7, 3, 10, 5, []⟩]) :=
  (send_post_to_admins_delivery (fun _ => SendOutcome.ok 5) none
    ⟨3, 7, ⟨7, none, "u"⟩, some "hi", [], [], none, none, none, none, none, none⟩
    10 []).2.1 5 rfl

/-- C2: a recreated poll copy is built only from the original poll's
question, option texts, type, multiple-answers flag and correct-option id;
two originals differing only in voter-derived data yield identical copies,
at both the admin-group and the public-channel call sites. -/
theorem poll_copy_voter_independence (p1 p2 : Poll)
    (hq : p1.question = p2.question)
    (ho : p1.options.map PollOption.text = p2.options.map PollOption.text)
    (ht : p1.type = p2.type)
    (ha : p1.allows_multiple_answers = p2.allows_multiple_answers)
    (hc : p1.correct_option_id = p2.correct_option_id) :
    sendPollPayload p1 = sendPollPayload p2 ∧
    (∀ sp ag m1 m2, Message.poll m1 = some p1 → Message.poll m2 = some p2 →
      adminCopyCall sp m1 ag = adminCopyCall sp m2 ag) ∧
    (∀ comments ch m1 m2, Message.poll m1 = some p1 → Message.poll m2 = some p2 →
      channelCopyCall comments m1 ch = channelCopyCall comments m2 ch) := by
  have hpay : sendPollPayload p1 = sendPollPayload p2 := by
    simp [sendPollPayload, hq, ho, ht, ha, hc]
  refine ⟨hpay, ?_, ?_⟩
  · intro sp ag m1 m2 h1 h2
    simp [adminCopyCall, h1, h2, hpay]
  · intro comments ch m1 m2 h1 h2
    simp [channelCopyCall, h1, h2, hpay]

/-- C2 witness: two concrete polls differing only in id, voter counts,
anonymity and closed flags produce the same copy payload. -/
theorem poll_copy_voter_independence_witness :
    sendPollPayload ⟨"q", [⟨"a", 0⟩], "regular", false, none, "id1", 0, true, false⟩ =
      sendPollPayload ⟨"q", [⟨"a", 3⟩], "regular", false, none, "id2", 3, false, true⟩ :=
  (poll_copy_voter_independence
    ⟨"q", [⟨"a", 0⟩], "regular", false, none, "id1", 0, true, false⟩
    ⟨"q", [⟨"a", 3⟩], "regular", false, none, "id2", 3, false, true⟩
    rfl rfl rfl rfl rfl).1

/-- C3: `send_post_to_channel` with comments disabled creates the
`PublishedPost` for the channel and new message id with an empty tally,
leaves the credit records untouched, and the channel copy carries the
community vote keyboard; with comments enabled it creates no
`PublishedPost`, stores the submitter's id keyed by the
`(channel id, message id)` pair, and the channel copy carries no keyboard. -/
theorem send_post_to_channel_spec (comments : Bool) (channel_id user_id : Int)
    (c_message_id : Nat) (m : Message) (st : ChannelState) :
    (comments = false →
      send_post_to_channel comments channel_id user_id c_message_id st =
        ⟨st.published ++ [⟨channel_id, c_message_id, []⟩], st.bot_data⟩ ∧
      TransportCall.replyMarkup (channelCopyCall comments m channel_id) =
        some Markup.publishedPostKb) ∧
    (comments = true →
      (send_post_to_channel comments channel_id user_id c_message_id st).published =
        st.published ∧
      botDataGet (channel_id, c_message_id)
        (send_post_to_channel comments channel_id user_id c_message_id st).bot_data =
        some user_id ∧
      TransportCall.replyMarkup (channelCopyCall comments m channel_id) = none) := by
  constructor
  · rintro rfl
    constructor
    · simp [send_post_to_channel, PublishedPost.create]
    · cases hp : m.poll <;>
        simp [channelCopyCall, hp, TransportCall.replyMarkup]
  · rintro rfl
    refine ⟨?_, ?_, ?_⟩
    · simp [send_post_to_channel]
    · simp [send_post_to_channel, botDataSet, botDataGet]
    · cases hp : m.poll <;>
        simp [channelCopyCall, hp, TransportCall.replyMarkup]

/-- C3 witness: both configurations evaluated at a concrete input. -/
theorem send_post_to_channel_spec_witness :
    send_post_to_channel false 100 7 42 ⟨[], []⟩ =
      ⟨[] ++ [⟨100, 42, []⟩], []⟩ ∧
    (send_post_to_channel true 100 7 42 ⟨[], []⟩).published = [] ∧
    botDataGet (100, 42) (send_post_to_channel true 100 7 42 ⟨[], []⟩).bot_data =
      some 7 :=
  ⟨((send_post_to_channel_spec false 100 7 42
      ⟨3, 7, ⟨7, none, "u"⟩, some "hi", [], [], none, none, none, none, none, none⟩
      ⟨[], []⟩).1 rfl).1,
   ((send_post_to_channel_spec true 100 7 42
      ⟨3, 7, ⟨7, none, "u"⟩, some "hi", [], [], none, none, none, none, none, none⟩
      ⟨[], []⟩).2 rfl).1,
   ((send_post_to_channel_spec true 100 7 42
      ⟨3, 7, ⟨7, none, "u"⟩, some "hi", [], [], none, none, none, none, none, none⟩
      ⟨[], []⟩).2 rfl).2.1⟩

/-- C4: a credit record is single-use: resolving it during the
community-group cross-post returns the stored submitter id and consumes the
record, so the key no longer resolves and a second cross-post for the same
key yields the absent marker `-1`. -/
theorem creditSubmitter_single_use (cg fc : Int) (fid pm pm2 : Nat)
    (st : ChannelState) (uid : Int)
    (hget : botDataGet (fc, fid) st.bot_data = some uid) :
    (send_post_to_channel_group cg fc fid pm st).fst = uid ∧
    botDataGet (fc, fid)
      (send_post_to_channel_group cg fc fid pm st).snd.bot_data = none ∧
    (send_post_to_channel_group cg fc fid pm2
      (send_post_to_channel_group cg fc fid pm st).snd).fst = -1 := by
  refine ⟨?_, ?_, ?_⟩
  · simp only [send_post_to_channel_group, botDataPop, hget]
  · simp only [send_post_to_channel_group, botDataPop, hget]
    exact botDataGet_filter_ne (fc, fid) st.bot_data
  · simp only [send_post_to_channel_group, botDataPop, hget,
      botDataGet_filter_ne]

/-- C4 witness: a concrete credit record resolves to its submitter once and
to `-1` on the second resolution. -/
theorem creditSubmitter_single_use_witness :
    (send_post_to_channel_group 200 5 9 1 ⟨[], [((5, 9), 77)]⟩).fst = 77 ∧
    (send_post_to_channel_group 200 5 9 2
      (send_post_to_channel_group 200 5 9 1 ⟨[], [((5, 9), 77)]⟩).snd).fst = -1 :=
  ⟨(creditSubmitter_single_use 200 5 9 1 2 ⟨[], [((5, 9), 77)]⟩ 77 rfl).1,
   (creditSubmitter_single_use 200 5 9 1 2 ⟨[], [((5, 9), 77)]⟩ 77 rfl).2.2⟩

/-- C8: the backup job runs exactly when the event's chat id equals the
configured group id, and the handler never sends a response. -/
theorem db_backup_gate (group_id : Int) (e : EventInfo) :
    ((db_backup_cmd group_id e).fst = true ↔
      EventInfo.chat_id e = some group_id) ∧
    (db_backup_cmd group_id e).snd = [] := by
  unfold db_backup_cmd
  by_cases h : EventInfo.chat_id e = some group_id <;> simp [h]

/-- C9: the `STATE` encoding gives the seven conversation states pairwise
distinct codes, and `end` is the unique state with a negative code, -1. -/
theorem STATE_distinct_end_negative :
    (STATE.map Prod.snd).Nodup ∧
    (∀ p ∈ STATE, p.snd < 0 ↔ p.fst = "end") ∧
    STATE.length = 7 ∧
    STATE.lookup "end" = some (-1) := by
  decide

/-- C10: with a callback query present, the user identity accessors report
the query's originating user (the button presser), regardless of the
attached message's sender; with neither query nor message they report no
identity. -/
theorem user_identity_query_precedence (e : EventInfo) :
    (∀ q, e.query = some q →
      EventInfo.user_id e = some q.from_user.id ∧
      EventInfo.user_username e = some q.from_user.username ∧
      EventInfo.user_name e = some q.from_user.name) ∧
    (e.query = none → e.message = none →
      EventInfo.user_id e = none ∧
      EventInfo.user_username e = none ∧
      EventInfo.user_name e = none) := by
  constructor
  · intro q hq
    simp [EventInfo.user_id, EventInfo.user_username, EventInfo.user_name, hq]
  · intro hq hm
    simp [EventInfo.user_id, EventInfo.user_username, EventInfo.user_name, hq, hm]

/-- C10 witness: an event carrying both a query (presser id 42) and a
message (author id 7) is attributed to the presser. -/
theorem user_identity_query_precedence_witness :
    EventInfo.user_id
      ⟨some ⟨3, 7, ⟨7, none, "author"⟩, some "hi", [], [], none, none, none,
          none, none, none⟩,
        some ⟨"1", none, ⟨42, some "presser", "P"⟩⟩, none⟩ = some 42 ∧
    EventInfo.user_username
      ⟨some ⟨3, 7, ⟨7, none, "author"⟩, some "hi", [], [], none, none, none,
          none, none, none⟩,
        some ⟨"1", none, ⟨42, some "presser", "P"⟩⟩, none⟩ = some (some "presser") ∧
    EventInfo.user_name
      ⟨some ⟨3, 7, ⟨7, none, "author"⟩, some "hi", [], [], none, none, none,
          none, none, none⟩,
        some ⟨"1", none, ⟨42, some "presser", "P"⟩⟩, none⟩ = some "P" :=
  (user_identity_query_precedence
    ⟨some ⟨3, 7, ⟨7, none, "author"⟩, some "hi", [], [], none, none, none,
        none, none, none⟩,
      some ⟨"1", none, ⟨42, some "presser", "P"⟩⟩, none⟩).1
    ⟨"1", none, ⟨42, some "presser", "P"⟩⟩ rfl

/-- C6: the content classifier accepts a message exactly when it carries
one of the eight supported kinds (under the Telegram data model a message
carries at most one), and rejects an absent message and any message
matching none of the kinds. -/
theorem is_valid_message_type_classification :
    is_valid_message_type none = false ∧
    (∀ m : Message, contentKindCount m ≤ 1 →
      (is_valid_message_type (some m) = true ↔ contentKindCount m = 1)) ∧
    (∀ m : Message, contentKindCount m = 0 →
      is_valid_message_type (some m) = false) := by
  refine ⟨rfl, ?_, ?_⟩
  · intro m hle
    rw [is_valid_iff_pos]
    omega
  · intro m h0
    cases hv : is_valid_message_type (some m) with
    | false => rfl
    | true =>
      have := (is_valid_iff_pos m).mp hv
      omega

/-- C6 witness: a plain text message carries exactly one supported kind and
is accepted. -/
theorem is_valid_message_type_classification_witness :
    is_valid_message_type
      (some ⟨3, 7, ⟨7, none, "u"⟩, some "hi", [], [], none, none, none, none,
        none, none⟩) = true ↔
    contentKindCount
      ⟨3, 7, ⟨7, none, "u"⟩, some "hi", [], [], none, none, none, none,
        none, none⟩ = 1 :=
  is_valid_message_type_classification.2.1
    ⟨3, 7, ⟨7, none, "u"⟩, some "hi", [], [], none, none, none, none,
      none, none⟩ (by decide)

/-- C7: callback parsing is total: with callback data present the action
key is the longest comma-free initial segment of the data and the
positional arguments are the comma-separated fields after the first one
(none when the data has no comma); without a query or without data the key
is empty and the arguments fall back to the context's arguments or the
empty list. -/
theorem callback_parsing_total (e : EventInfo) :
    (∀ q d, e.query = some q → q.data = some d →
      EventInfo.callback_key e = d.takeWhile (fun c => decide (c ≠ ',')) ∧
      EventInfo.args e = (splitComma d).tail ∧
      (',' ∉ d → EventInfo.args e = [])) ∧
    (e.query = none →
      EventInfo.callback_key e = [] ∧
      EventInfo.args e = e.ctx_args.getD []) ∧
    (∀ q, e.query = some q → q.data = none →
      EventInfo.callback_key e = [] ∧
      EventInfo.args e = e.ctx_args.getD []) := by
  refine ⟨?_, ?_, ?_⟩
  · intro q d hq hd
    refine ⟨?_, ?_, ?_⟩
    · simp only [EventInfo.callback_key, hq, hd]
      exact splitComma_headD d
    · simp only [EventInfo.args, hq, hd]
      exact tail_of_ite_length _ (splitComma_ne_nil d)
    · intro hmem
      simp only [EventInfo.args, hq, hd]
      rw [tail_of_ite_length _ (splitComma_ne_nil d), splitComma_tail,
        if_neg hmem]
  · intro hq
    simp [EventInfo.callback_key, EventInfo.args, hq]
  · intro q hq hd
    simp [EventInfo.callback_key, EventInfo.args, hq, hd]

/-- C7 witness: the callback data `vote,2` parses into key `vote` and the
single argument `2`. -/
theorem callback_parsing_total_witness :
    EventInfo.callback_key
      ⟨none, some ⟨"q", some ['v', 'o', 't', 'e', ',', '2'], ⟨1, none, "u"⟩⟩,
        none⟩ = ['v', 'o', 't', 'e'] ∧
    EventInfo.args
      ⟨none, some ⟨"q", some ['v', 'o', 't', 'e', ',', '2'], ⟨1, none, "u"⟩⟩,
        none⟩ = [['2']] := by
  have h := (callback_parsing_total
    ⟨none, some ⟨"q", some ['v', 'o', 't', 'e', ',', '2'], ⟨1, none, "u"⟩⟩,
      none⟩).1
    ⟨"q", some ['v', 'o', 't', 'e', ',', '2'], ⟨1, none, "u"⟩⟩
    ['v', 'o', 't', 'e', ',', '2'] rfl rfl
  exact ⟨h.1.trans (by decide), h.2.1.trans (by decide)⟩

/-- C5: after finalization the reminder excludes the finalized post, its
count equals the number of remaining pending posts of the same admin group,
and it replies to the remaining pending post with the smallest admin
message id; with no remaining pending post no reminder is sent.  The
hypotheses are the store invariants: the finalized post is a table row and
admin message ids are unique within the group. -/
theorem show_admins_votes_reminder (pending_post : PendingPost)
    (tbl : List PendingPost)
    (hd : (PendingPost.get_all pending_post.admin_group_id tbl).Pairwise
      (fun a b => a.g_message_id ≠ b.g_message_id))
    (hmem : pending_post ∈ tbl) :
    pending_post ∉ remainingPosts pending_post tbl ∧
    (∀ p ∈ remainingPosts pending_post tbl,
      p.g_message_id ≠ pending_post.g_message_id) ∧
    (remainingPosts pending_post tbl).length + 1 =
      (PendingPost.get_all pending_post.admin_group_id tbl).length ∧
    (show_admins_votes pending_post tbl = none ↔
      remainingPosts pending_post tbl = []) ∧
    (∀ c t, show_admins_votes pending_post tbl = some (c, t) →
      c = (remainingPosts pending_post tbl).length ∧
      (∃ p, p ∈ remainingPosts pending_post tbl ∧ p.g_message_id = t) ∧
      (∀ p ∈ remainingPosts pending_post tbl, t ≤ p.g_message_id)) := by
  refine ⟨?_, ?_, ?_, ?_, ?_⟩
  · intro hin
    rcases List.mem_filter.mp hin with ⟨_, hpred⟩
    simp at hpred
  · intro p hp
    rcases List.mem_filter.mp hp with ⟨_, hpred⟩
    simpa using hpred
  · have hx : pending_post ∈
        PendingPost.get_all pending_post.admin_group_id tbl := by
      apply List.mem_filter.mpr
      exact ⟨hmem, by simp⟩
    exact length_filter_ne_gmid pending_post _ hd hx
  · cases hs : sortByGmid (remainingPosts pending_post tbl) with
    | nil =>
      constructor
      · intro _
        have hl := length_sortByGmid (remainingPosts pending_post tbl)
        rw [hs] at hl
        exact List.length_eq_zero.mp hl.symm
      · intro _
        simp [show_admins_votes, hs]
    | cons oldest rest2 =>
      constructor
      · intro hnone
        simp [show_admins_votes, hs] at hnone
      · intro hempty
        rw [hempty] at hs
        simp [sortByGmid] at hs
  · intro c t hsome
    cases hs : sortByGmid (remainingPosts pending_post tbl) with
    | nil =>
      simp [show_admins_votes, hs] at hsome
    | cons oldest rest2 =>
      have hshow : show_admins_votes pending_post tbl =
          some ((oldest :: rest2).length, oldest.g_message_id) := by
        simp [show_admins_votes, hs]
      rw [hshow] at hsome
      have hpair := Option.some.inj hsome
      have hc : (oldest :: rest2).length = c := congrArg Prod.fst hpair
      have ht : oldest.g_message_id = t := congrArg Prod.snd hpair
      obtain ⟨hin, hmin⟩ :=
        sortByGmid_head_min (remainingPosts pending_post tbl) oldest rest2 hs
      refine ⟨?_, ?_, ?_⟩
      · rw [← hc]
        have hl := length_sortByGmid (remainingPosts pending_post tbl)
        rw [hs] at hl
        exact hl
      · exact ⟨oldest, hin, ht⟩
      · intro p hp
        rw [← ht]
        exact hmin p hp

/-- C5 witness: finalizing the post with admin message id 5 leaves the
posts with ids 9 and 7; the reminder counts 2 and replies to id 7. -/
theorem show_admins_votes_reminder_witness :
    show_admins_votes ⟨1, 2, 10, 5, []⟩
      [⟨1, 2, 10, 5, []⟩, ⟨2, 3, 10, 9, []⟩, ⟨3, 4, 10, 7, []⟩] =
      some (2, 7) ∧
    2 = (remainingPosts ⟨1, 2, 10, 5, []⟩
      [⟨1, 2, 10, 5, []⟩, ⟨2, 3, 10, 9, []⟩, ⟨3, 4, 10, 7, []⟩]).length ∧
    (∃ p, p ∈ remainingPosts ⟨1, 2, 10, 5, []⟩
      [⟨1, 2, 10, 5, []⟩, ⟨2, 3, 10, 9, []⟩, ⟨3, 4, 10, 7, []⟩] ∧
      p.g_message_id = 7) ∧
    (∀ p ∈ remainingPosts ⟨1, 2, 10, 5, []⟩
      [⟨1, 2, 10, 5, []⟩, ⟨2, 3, 10, 9, []⟩, ⟨3, 4, 10, 7, []⟩],
      7 ≤ p.g_message_id) := by
  have h := (show_admins_votes_reminder ⟨1, 2, 10, 5, []⟩
    [⟨1, 2, 10, 5, []⟩, ⟨2, 3, 10, 9, []⟩, ⟨3, 4, 10, 7, []⟩]
    (by decide) (by decide)).2.2.2.2 2 7 rfl
  exact ⟨rfl, h.1, h.2.1, h.2.2⟩

end Spotted
